import Mathlib

/-!
Shallow embedding of the `scene` Go package (Factory + Scoped Context engine).

The embedding follows the current sources: the `context` type of the context
file (`Spawn`, `Store`, `Value`, `Defer`, `Complete`, `CompleteWithError`,
`GetLastError`, `Attach`, the deadline monitor `refreshDeadline`) and the
`Factory` type of `common.go` (`NewCtx`, `Wrap`, `newCtx`, `Shutdown`,
`OpenContexts`, `StoreDefault`, `NewSceneFactor`), plus the helper
`GetRequestID`.

Go `any`-keyed maps are embedded as association lists over a concrete key
type; Go errors as an inductive type (with a `traced` wrapper standing for
`stack.Trace`, which wraps a base error with key/value annotations); real
time and goroutines are elided: the deadline monitor's timeout branch is
embedded as an explicit `timerFire` event, and each method is a pure state
transformer threading the factory state explicitly.
-/

namespace Scene

/-- Keys of the context value map (`map[any]any` keys in Go): the two
struct-keys used by the package plus opaque user keys. -/
inductive Key where
  | requestID   -- RequestIDKey{}
  | contextRef  -- ContextRef{}
  | user (n : Nat)
deriving DecidableEq, Repr

/-- Values stored in a context value map (`any` in Go).  `vself` stands for
the context storing a reference to itself (`ctx.contextValues[ContextRef{}]
= ctx`). -/
inductive Val where
  | vstr (s : String)
  | vnat (n : Nat)
  | vself
deriving DecidableEq, Repr

/-- Go `error` values that occur in the package: the three sentinels, opaque
caller-supplied errors, and `traced e kvKeys` standing for
`stack.Trace(e, kvps...)` — a wrapper that keeps the base error and attaches
the given annotation keys. -/
inductive GoErr where
  | timeout             -- ErrTimeout
  | complete            -- ErrComplete
  | shutdownInProgress  -- ErrShutdownInProgress
  | user (n : Nat)
  | traced (base : GoErr) (kvKeys : List String)
deriving DecidableEq, Repr

/-- Root of an error once every `stack.Trace` wrapper is stripped; this is
what `errors.Is` against a sentinel inspects. -/
def GoErr.rootOf : GoErr → GoErr
  | .traced base _ => base.rootOf
  | e => e

/-- Association-list embedding of a Go `map[any]any` restricted to `Key`/`Val`. -/
abbrev VMap := List (Key × Val)

/-- Map lookup (`m[k]` with the found flag collapsed into `Option`). -/
def mlookup : VMap → Key → Option Val
  | [], _ => none
  | (k', v) :: t, k => if k' = k then some v else mlookup t k

/-- Map assignment `m[k] = v`: replaces the binding when present, appends it
otherwise. -/
def minsert : VMap → Key → Val → VMap
  | [], k, v => [(k, v)]
  | (k', v') :: t, k, v =>
      if k' = k then (k, v) :: t else (k', v') :: minsert t k v

/-- An external `context.Context` (the `ogContext.Context` a Scene wraps or
attaches): for this development just a value table and an `Err()` result.
`context.Background()` is `⟨[], none⟩`. -/
structure BaseCtx where
  vals : VMap
  berr : Option GoErr
deriving DecidableEq, Repr

/-- Lookup in an external context (`ctx.Value(key)`). -/
def BaseCtx.value (b : BaseCtx) (k : Key) : Option Val :=
  mlookup b.vals k

/-- The `context.Background()` base: no values, nil `Err()`. -/
def background : BaseCtx := ⟨[], none⟩

/-- State of one Scoped Context (the `context` struct).  Deferred callbacks
are identified by opaque ids; `values = none` embeds the nil map the
completion path leaves behind; `completeClosed` records that the `complete`
channel has been closed. -/
structure Ctx where
  base : Option BaseCtx
  values : Option VMap
  isComplete : Bool
  err : Option GoErr
  onComplete : List Nat
  id : String
  completeClosed : Bool
deriving DecidableEq, Repr

/-- Effect of one provider hook invocation on a context: the hook either
returns after storing some key/value pairs, or panics. -/
inductive HookAct where
  | stores (kvs : List (Key × Val))
  | panics
deriving DecidableEq, Repr

/-- A `Provider` implementation, abstracted to the effects its hooks have on
the state this development tracks: what `OnFactoryMount` writes through
`StoreDefault`, what `OnNewContext` stores into the fresh context, and what
`OnSpawnedContext` does (store into the child, or panic). -/
structure Provider where
  onMountStores : List (Key × Val)
  onNewStores : List (Key × Val)
  onSpawned : HookAct
deriving DecidableEq, Repr

/-- State of a `Factory`: the shutdown flag, the open-context counter (an
`int32` in Go, far from overflow in any reachable state, embedded as `Int`),
the default value store and the provider list. -/
structure Factory where
  closed : Bool
  openContexts : Int
  defaults : VMap
  injectors : List Provider
deriving DecidableEq, Repr

/-- Inline of `Factory.StoreDefault` (the `defaultContextCt` bookkeeping only
pre-sizes the Go map and has no observable effect here). -/
def Factory.storeDefault (f : Factory) (k : Key) (v : Val) : Factory :=
  { f with defaults := minsert f.defaults k v }

/-- Inline of `Factory.GetDefault`. -/
def Factory.getDefault (f : Factory) (k : Key) : Option Val :=
  mlookup f.defaults k

/-- Embedding of `NewSceneFactor`: a fresh factory whose mount loop runs each
provider's `OnFactoryMount`, which contributes its writes through
`StoreDefault` in registration order. -/
def NewSceneFactor (injectors : List Provider) : Factory :=
  let f : Factory :=
    { closed := false, openContexts := 0, defaults := [], injectors := injectors }
  injectors.foldl
    (fun f p => p.onMountStores.foldl (fun f kv => f.storeDefault kv.1 kv.2) f) f

/-- Embedding of the shutdown-flag transition of `Factory.Shutdown`
(`factory.closed.CompareAndSwap(false, true)`): returns the factory with the
flag set and whether this call won the swap.  The drain wait, unmount loop
and logging act on state outside this development. -/
def Factory.shutdownBegin (f : Factory) : Factory × Bool :=
  if f.closed then (f, false)
  else ({ f with closed := true }, true)

/-- Embedding of `Factory.OpenContexts`. -/
def Factory.openContextsOf (f : Factory) : Int := f.openContexts

/-- Embedding of `context.Store`: a no-op once `isComplete` is set, otherwise
a map assignment under the lock. -/
def Ctx.store (c : Ctx) (k : Key) (v : Val) : Ctx :=
  if c.isComplete then c
  else { c with values := some (minsert (c.values.getD []) k v) }

/-- Embedding of `context.Value`: the own map first (when non-nil and the key
is present), then the attached base context, then absent. -/
def Ctx.value (c : Ctx) (k : Key) : Option Val :=
  match c.values with
  | some m =>
      match mlookup m k with
      | some v => some v
      | none => match c.base with
                | some b => b.value k
                | none => none
  | none => match c.base with
            | some b => b.value k
            | none => none

/-- Embedding of `context.GetLastError`: the own sticky error when set,
otherwise the attached base context's `Err()`, otherwise nil. -/
def Ctx.getLastError (c : Ctx) : Option GoErr :=
  match c.err with
  | some e => some e
  | none => match c.base with
            | some b => b.berr
            | none => none

/-- Embedding of `context.Err`, which delegates to `GetLastError`. -/
def Ctx.errOf (c : Ctx) : Option GoErr := c.getLastError

/-- Embedding of `context.Defer`: appends unconditionally (the source has no
completed-flag check here). -/
def Ctx.deferCb (c : Ctx) (cb : Nat) : Ctx :=
  { c with onComplete := c.onComplete ++ [cb] }

/-- Embedding of `context.Attach` with a non-Scene argument: the base context
is replaced. -/
def Ctx.attach (c : Ctx) (b : BaseCtx) : Ctx :=
  { c with base := some b }

/-- Embedding of `context.Attach` with a Scene `*context` argument: the
argument's own base (not the argument itself) becomes the new base. -/
def Ctx.attachScene (c other : Ctx) : Ctx :=
  { c with base := other.base }

/-- Embedding of `GetRequestID`: `Value(RequestIDKey{})`, empty string when
nil.  (The `id.(string)` assertion cannot fail on factory-minted contexts,
where the key is only ever bound to the context's id string.) -/
def getRequestID (c : Ctx) : String :=
  match c.value .requestID with
  | some (.vstr s) => s
  | some _ => ""
  | none => ""

/-- Result of `context.CompleteWithError`: the updated factory and context,
and the deferred callbacks that ran, in execution order, each paired with the
error argument they received. -/
structure CompleteOut where
  fac : Factory
  ctx : Ctx
  ran : List (Nat × Option GoErr)
deriving DecidableEq, Repr

/-- Embedding of `context.CompleteWithError`: idempotence guard on
`isComplete`; record the supplied error when non-nil, defaulting the sticky
error to the `Complete` sentinel; decrement the factory's open-context
counter; run the deferred callbacks last-registered-first, passing each the
original argument; close the completion channel; clear the value map to nil. -/
def completeWithError (f : Factory) (c : Ctx) (e : Option GoErr) : CompleteOut :=
  if c.isComplete then ⟨f, c, []⟩
  else
    let c1 := { c with isComplete := true }
    let c2 := match e with
              | some x => { c1 with err := some x }
              | none => c1
    let f1 := { f with openContexts := f.openContexts - 1 }
    let c3 := if c2.err = none then { c2 with err := some .complete } else c2
    let ran := c3.onComplete.reverse.map (fun cb => (cb, e))
    let c4 := { c3 with completeClosed := true, values := none }
    ⟨f1, c4, ran⟩

/-- Embedding of `context.Complete`, which is `CompleteWithError(ErrComplete)`. -/
def completeCtx (f : Factory) (c : Ctx) : CompleteOut :=
  completeWithError f c (some .complete)

/-- Annotation keys `stack.Trace` attaches on the timeout path of
`refreshDeadline`. -/
def timeoutKvKeys : List String :=
  ["startedBy", "startedAt", "deadline (ms)", "factoryIdentifier"]

/-- Embedding of the timeout branch of `refreshDeadline`: when the timer wins
the select, the context completes itself with the traced `Timeout` sentinel.
(When the completion channel wins, the monitor exits with no effect; firing
on a completed context is a no-op through the idempotence guard.) -/
def timerFire (f : Factory) (c : Ctx) : CompleteOut :=
  completeWithError f c (some (.traced .timeout timeoutKvKeys))

/-- Embedding of `Factory.newCtx` (the unexported constructor): bump the
open-context counter, bind the request id, copy the defaults in, run each
provider's `OnNewContext` (its stores), then bind the self reference under
`ContextRef{}`.  The deadline timer start is elided (`timerFire` models its
only effect). -/
def Factory.newCtx (f : Factory) (baseCtx : Option BaseCtx) (idStr : String) :
    Factory × Ctx :=
  let f1 := { f with openContexts := f.openContexts + 1 }
  let vals0 : VMap := [(.requestID, .vstr idStr)]
  let vals1 := f1.defaults.foldl (fun m kv => minsert m kv.1 kv.2) vals0
  let vals2 := f1.injectors.foldl
    (fun m p => p.onNewStores.foldl (fun m kv => minsert m kv.1 kv.2) m) vals1
  let vals3 := minsert vals2 .contextRef .vself
  (f1,
   { base := baseCtx, values := some vals3, isComplete := false, err := none,
     onComplete := [], id := idStr, completeClosed := false })

/-- Result of `Factory.NewCtx` / `Factory.Wrap`: the updated factory state
and the `(Context, error)` pair. -/
structure CreateOut where
  fac : Factory
  ret : Option Ctx
  err : Option GoErr
deriving DecidableEq, Repr

/-- Embedding of `Factory.NewCtx`: fails fast with `ErrShutdownInProgress`
once the shutdown flag is set, otherwise mints a context over
`context.Background()`. -/
def Factory.NewCtx (f : Factory) (idStr : String) : CreateOut :=
  if f.closed then ⟨f, none, some .shutdownInProgress⟩
  else
    let fc := f.newCtx (some background) idStr
    ⟨fc.1, some fc.2, none⟩

/-- Embedding of `Factory.Wrap`: like `NewCtx` but over a supplied base
context. -/
def Factory.Wrap (f : Factory) (b : BaseCtx) (idStr : String) : CreateOut :=
  if f.closed then ⟨f, none, some .shutdownInProgress⟩
  else
    let fc := f.newCtx (some b) idStr
    ⟨fc.1, some fc.2, none⟩

/-- Run of the `OnSpawnedContext` hook loop in `context.Spawn`: providers in
registration order, each storing into the child; `true` in the second
component records that some hook panicked (ending the loop there). -/
def runSpawnedHooks : List Provider → Ctx → Ctx × Bool
  | [], c => (c, false)
  | p :: t, c =>
      match p.onSpawned with
      | .panics => (c, true)
      | .stores kvs => runSpawnedHooks t (kvs.foldl (fun c kv => c.store kv.1 kv.2) c)

/-- Result of `context.Spawn`: the updated factory, the `(Context, error)`
return pair, and — for specification purposes — the final state of the child
the call allocated, when it allocated one. -/
structure SpawnOut where
  fac : Factory
  ret : Option Ctx
  err : Option GoErr
  child : Option Ctx
deriving DecidableEq, Repr

/-- Embedding of `context.Spawn`: fail with `ErrShutdownInProgress` when the
parent itself is completed (the factory's shutdown flag is not consulted);
otherwise mint a child over the parent's base via `factory.newCtx` and run
the `OnSpawnedContext` hooks.  A hook panic is recovered by the deferred
handler, which force-completes the child; the handler does not re-panic, so
`Spawn` then returns its zero values `(nil, nil)`. -/
def Ctx.spawn (f : Factory) (c : Ctx) (idStr : String) : SpawnOut :=
  if c.isComplete then ⟨f, none, some .shutdownInProgress, none⟩
  else
    let fc := f.newCtx c.base idStr
    let hooked := runSpawnedHooks fc.1.injectors fc.2
    if hooked.2 then
      let done := completeCtx fc.1 hooked.1
      ⟨done.fac, none, none, some done.ctx⟩
    else
      ⟨fc.1, some hooked.1, none, some hooked.1⟩

/-- One executed deferred callback, as recorded in a trace: the index of the
context it was registered on, the callback id, and the error argument it
received. -/
structure LogEntry where
  ctxIdx : Nat
  cb : Nat
  arg : Option GoErr
deriving DecidableEq, Repr

/-- A whole-system state: the factory and every context it has minted (in
creation order; contexts are never removed), plus the trace of executed
deferred callbacks. -/
structure World where
  factory : Factory
  ctxs : List Ctx
  log : List LogEntry
deriving DecidableEq, Repr

/-- The state right after `NewSceneFactor`: no contexts, no callbacks run. -/
def initWorld (injectors : List Provider) : World :=
  ⟨NewSceneFactor injectors, [], []⟩

/-- API events a client can drive the system with, sequentially.  Events
naming an absent context index are no-ops. -/
inductive Op where
  | newCtx (idStr : String)
  | wrap (b : BaseCtx) (idStr : String)
  | store (i : Nat) (k : Key) (v : Val)
  | deferCb (i : Nat) (cb : Nat)
  | complete (i : Nat)
  | completeWithErr (i : Nat) (e : Option GoErr)
  | timerFire (i : Nat)
  | spawn (i : Nat) (idStr : String)
  | attach (i : Nat) (b : BaseCtx)
  | shutdownBegin
deriving DecidableEq, Repr

/-- Applies an in-place update to context `i` that touches neither the
factory nor the log. -/
def World.updCtx (w : World) (i : Nat) (g : Ctx → Ctx) : World :=
  match w.ctxs[i]? with
  | none => w
  | some c => { w with ctxs := w.ctxs.set i (g c) }

/-- Applies a completion-style event (`Complete`, `CompleteWithError`, the
deadline firing) to context `i`, recording the callbacks it ran. -/
def World.completeAt (w : World) (i : Nat) (e : Option GoErr) : World :=
  match w.ctxs[i]? with
  | none => w
  | some c =>
      let out := completeWithError w.factory c e
      { factory := out.fac, ctxs := w.ctxs.set i out.ctx,
        log := w.log ++ out.ran.map (fun p => ⟨i, p.1, p.2⟩) }

/-- One step of the system under an API event. -/
def World.step (w : World) : Op → World
  | .newCtx idStr =>
      let out := w.factory.NewCtx idStr
      match out.ret with
      | none => { w with factory := out.fac }
      | some c => { w with factory := out.fac, ctxs := w.ctxs ++ [c] }
  | .wrap b idStr =>
      let out := w.factory.Wrap b idStr
      match out.ret with
      | none => { w with factory := out.fac }
      | some c => { w with factory := out.fac, ctxs := w.ctxs ++ [c] }
  | .store i k v => w.updCtx i (fun c => c.store k v)
  | .deferCb i cb => w.updCtx i (fun c => c.deferCb cb)
  | .complete i => w.completeAt i (some .complete)
  | .completeWithErr i e => w.completeAt i e
  | .timerFire i => w.completeAt i (some (.traced .timeout timeoutKvKeys))
  | .spawn i idStr =>
      match w.ctxs[i]? with
      | none => w
      | some c =>
          let out := c.spawn w.factory idStr
          match out.child with
          | none => { w with factory := out.fac }
          | some ch => { w with factory := out.fac, ctxs := w.ctxs ++ [ch] }
  | .attach i b => w.updCtx i (fun c => c.attach b)
  | .shutdownBegin => { w with factory := (w.factory.shutdownBegin).1 }

/-- Runs a sequence of API events. -/
def World.run (w : World) : List Op → World
  | [] => w
  | o :: t => (w.step o).run t

/-- Number of completed contexts in a world. -/
def World.completedCount (w : World) : Nat :=
  w.ctxs.countP (fun c => c.isComplete)

/-- Sticky-error update the completion path performs: the supplied error when
non-nil, otherwise the already-recorded error, defaulting to the `Complete`
sentinel. -/
def stickyErr (old e : Option GoErr) : Option GoErr :=
  match e with
  | some x => some x
  | none => match old with
            | none => some GoErr.complete
            | some y => some y

/-- Placeholder context used only to destructure `Option Ctx` results on
concrete inputs. -/
def dfltCtx : Ctx := ⟨none, none, true, none, [], "", false⟩

/-- Concrete input: factory state after minting one context. -/
def fac0 : Factory := ((NewSceneFactor []).NewCtx "a").fac

/-- Concrete input: the (still open) context minted by `fac0`. -/
def ctx0 : Ctx := (((NewSceneFactor []).NewCtx "a").ret).getD dfltCtx

/-- Concrete input: `fac0` after shutdown has begun, with `ctx0` still open. -/
def c1fac : Factory := (fac0.shutdownBegin).1

/-- Concrete input: a provider whose `OnSpawnedContext` hook panics. -/
def c4prov : Provider := ⟨[], [], .panics⟩

/-- Concrete input: factory state after minting one context with the
panicking provider installed. -/
def c4fac : Factory := ((NewSceneFactor [c4prov]).NewCtx "a").fac

/-- Concrete input: the open parent context under the panicking provider. -/
def c4ctx : Ctx := (((NewSceneFactor [c4prov]).NewCtx "a").ret).getD dfltCtx

/-- Concrete input: an external base context carrying one user key. -/
def c3base : BaseCtx := ⟨[(.user 1, .vnat 5)], none⟩

/-- Concrete input: factory state after wrapping `c3base`. -/
def c3fac : Factory := ((NewSceneFactor []).Wrap c3base "w").fac

/-- Concrete input: the wrapped context, after one `Store` shadowing the
base's binding for the same key. -/
def c3stored : Ctx :=
  ((((NewSceneFactor []).Wrap c3base "w").ret).getD dfltCtx).store (.user 1) (.vnat 9)

/-- Concrete input: the wrapped-and-stored context after completion. -/
def c3done : Ctx := (completeWithError c3fac c3stored none).ctx

/-- Concrete input: factory state after minting one context with id `abc`. -/
def c9fac : Factory := ((NewSceneFactor []).NewCtx "abc").fac

/-- Concrete input: the context minted with id `abc`. -/
def c9ctx : Ctx := (((NewSceneFactor []).NewCtx "abc").ret).getD dfltCtx

/-- Concrete input: the `abc` context after explicit completion. -/
def c9done : Ctx := (completeCtx c9fac c9ctx).ctx

/-- Concrete input: `ctx0` after its deadline timer fired. -/
def c5fired : Ctx := (timerFire fac0 ctx0).ctx

/-- Concrete input: a world holding one already-completed context. -/
def c2w : World := World.run (initWorld []) [.newCtx "a", .complete 0]

/-- Concrete input: the completed context sitting at index 0 of `c2w`. -/
def c8ctx : Ctx := (c2w.ctxs[0]?).getD dfltCtx

/-! ### List helper lemmas -/

lemma get?_append_some {α : Type _} {l l' : List α} {i : Nat} {a : α}
    (h : l[i]? = some a) : (l ++ l')[i]? = some a := by
  induction l generalizing i with
  | nil => simp at h
  | cons x t ih =>
      cases i with
      | zero => simpa using h
      | succ n => simpa using ih (by simpa using h)

lemma get?_set_eq_of_some {α : Type _} {l : List α} {i : Nat} {a : α} (b : α)
    (h : l[i]? = some a) : (l.set i b)[i]? = some b := by
  induction l generalizing i with
  | nil => simp at h
  | cons x t ih =>
      cases i with
      | zero => simp
      | succ n => simpa using ih (by simpa using h)

lemma get?_set_ne {α : Type _} {l : List α} {i j : Nat} (b : α)
    (h : i ≠ j) : (l.set i b)[j]? = l[j]? := by
  induction l generalizing i j with
  | nil => rfl
  | cons x t ih =>
      cases i with
      | zero =>
          cases j with
          | zero => exact absurd rfl h
          | succ m => rfl
      | succ n =>
          cases j with
          | zero => simp
          | succ m =>
              have hnm : n ≠ m := by omega
              simpa using ih hnm

lemma set_of_get?_eq {α : Type _} {l : List α} {i : Nat} {a : α}
    (h : l[i]? = some a) : l.set i a = l := by
  induction l generalizing i with
  | nil => rfl
  | cons x t ih =>
      cases i with
      | zero => simp at h; simp [h]
      | succ n => simpa using ih (by simpa using h)

lemma countP_set_same_flag {α : Type _} (p : α → Bool) {l : List α} {i : Nat}
    {a : α} (b : α) (h : l[i]? = some a) (hpq : p b = p a) :
    (l.set i b).countP p = l.countP p := by
  induction l generalizing i with
  | nil => simp at h
  | cons x t ih =>
      cases i with
      | zero =>
          simp at h
          subst h
          simp [List.countP_cons, hpq]
      | succ n =>
          simp only [List.set, List.countP_cons, ih (by simpa using h)]

lemma countP_set_flip_up {α : Type _} (p : α → Bool) {l : List α} {i : Nat}
    {a : α} (b : α) (h : l[i]? = some a) (ha : p a = false)
    (hb : p b = true) : (l.set i b).countP p = l.countP p + 1 := by
  induction l generalizing i with
  | nil => simp at h
  | cons x t ih =>
      cases i with
      | zero =>
          simp at h
          subst h
          simp [List.countP_cons, ha, hb]
      | succ n =>
          simp only [List.set, List.countP_cons, ih (by simpa using h)]
          omega

/-! ### Basic facts about the embedded operations -/

lemma deferCb_isComplete (c : Ctx) (cb : Nat) :
    (c.deferCb cb).isComplete = c.isComplete := rfl

lemma attach_isComplete (c : Ctx) (b : BaseCtx) :
    (c.attach b).isComplete = c.isComplete := rfl

lemma store_isComplete (c : Ctx) (k : Key) (v : Val) :
    (c.store k v).isComplete = c.isComplete := by
  simp only [Ctx.store]
  split <;> rfl

lemma store_of_complete {c : Ctx} (k : Key) (v : Val)
    (h : c.isComplete = true) : c.store k v = c := by
  simp [Ctx.store, h]

lemma foldStores_isComplete (kvs : List (Key × Val)) (c : Ctx) :
    (kvs.foldl (fun c kv => c.store kv.1 kv.2) c).isComplete = c.isComplete := by
  induction kvs generalizing c with
  | nil => rfl
  | cons kv t ih => simpa [store_isComplete] using ih (c.store kv.1 kv.2)

lemma runSpawnedHooks_isComplete (ps : List Provider) (c : Ctx) :
    (runSpawnedHooks ps c).1.isComplete = c.isComplete := by
  induction ps generalizing c with
  | nil => rfl
  | cons p t ih =>
      simp only [runSpawnedHooks]
      cases p.onSpawned with
      | panics => rfl
      | stores kvs =>
          rw [ih]
          exact foldStores_isComplete kvs c

lemma newCtx_fac (f : Factory) (b : Option BaseCtx) (idStr : String) :
    (f.newCtx b idStr).1 =
      { f with openContexts := f.openContexts + 1 } := rfl

lemma newCtx_ctx_isComplete (f : Factory) (b : Option BaseCtx) (idStr : String) :
    (f.newCtx b idStr).2.isComplete = false := rfl

lemma newCtx_ctx_base (f : Factory) (b : Option BaseCtx) (idStr : String) :
    (f.newCtx b idStr).2.base = b := rfl

lemma completeWithError_of_complete (f : Factory) {c : Ctx} (e : Option GoErr)
    (h : c.isComplete = true) : completeWithError f c e = ⟨f, c, []⟩ := by
  simp [completeWithError, h]

lemma completeWithError_of_open (f : Factory) {c : Ctx} (e : Option GoErr)
    (h : c.isComplete = false) :
    completeWithError f c e =
      ⟨{ f with openContexts := f.openContexts - 1 },
       { c with isComplete := true, err := stickyErr c.err e,
                completeClosed := true, values := none },
       c.onComplete.reverse.map (fun cb => (cb, e))⟩ := by
  cases e with
  | some x => simp [completeWithError, h, stickyErr]
  | none =>
      cases hc : c.err with
      | some y => simp [completeWithError, h, hc, stickyErr]
      | none => simp [completeWithError, h, hc, stickyErr]

lemma shutdownBegin_open (f : Factory) :
    (f.shutdownBegin).1.openContexts = f.openContexts := by
  simp only [Factory.shutdownBegin]
  split <;> rfl

lemma shutdownBegin_closed (f : Factory) :
    (f.shutdownBegin).1.closed = true := by
  simp only [Factory.shutdownBegin]
  split
  · next h => simpa using h
  · rfl

lemma storeDefault_open (f : Factory) (k : Key) (v : Val) :
    (f.storeDefault k v).openContexts = f.openContexts := rfl

lemma foldStoreDefault_open (l : List (Key × Val)) (f : Factory) :
    (l.foldl (fun f kv => f.storeDefault kv.1 kv.2) f).openContexts
      = f.openContexts := by
  induction l generalizing f with
  | nil => rfl
  | cons kv t ih => simpa [storeDefault_open] using ih (f.storeDefault kv.1 kv.2)

lemma mountFold_open (ps : List Provider) (f : Factory) :
    (ps.foldl
      (fun f p => p.onMountStores.foldl (fun f kv => f.storeDefault kv.1 kv.2) f)
      f).openContexts = f.openContexts := by
  induction ps generalizing f with
  | nil => rfl
  | cons p t ih => rw [List.foldl_cons, ih, foldStoreDefault_open]

lemma NewSceneFactor_open (injectors : List Provider) :
    (NewSceneFactor injectors).openContexts = 0 :=
  mountFold_open injectors _

/-! ### The open-context counter invariant -/

/-- Invariant tying the factory's counter to its contexts: `openContexts`
equals the number of contexts created minus the number completed. -/
def WInv (w : World) : Prop :=
  w.factory.openContexts =
    (w.ctxs.length : Int) - (w.ctxs.countP (fun c => c.isComplete) : Int)

lemma inv_completeAt {w : World} (i : Nat) (e : Option GoErr) (h : WInv w) :
    WInv (w.completeAt i e) := by
  cases hg : w.ctxs[i]? with
  | none => simpa [World.completeAt, hg] using h
  | some c =>
      by_cases hc : c.isComplete = true
      · simp only [World.completeAt, hg]
        rw [completeWithError_of_complete _ _ hc]
        simpa [WInv, set_of_get?_eq hg] using h
      · have hc' : c.isComplete = false := by simpa using hc
        simp only [World.completeAt, hg]
        rw [completeWithError_of_open _ _ hc']
        unfold WInv at h ⊢
        simp only [List.length_set]
        rw [countP_set_flip_up (fun c => c.isComplete) _ hg (by simpa using hc') rfl]
        push_cast
        omega

lemma inv_step {w : World} (o : Op) (h : WInv w) : WInv (w.step o) := by
  cases o with
  | newCtx idStr =>
      by_cases hcl : w.factory.closed = true
      · simpa [World.step, Factory.NewCtx, hcl, WInv] using h
      · unfold WInv at h ⊢
        simp [World.step, Factory.NewCtx, hcl, newCtx_fac,
          List.countP_append, List.countP_cons, newCtx_ctx_isComplete]
        omega
  | wrap b idStr =>
      by_cases hcl : w.factory.closed = true
      · simpa [World.step, Factory.Wrap, hcl, WInv] using h
      · unfold WInv at h ⊢
        simp [World.step, Factory.Wrap, hcl, newCtx_fac,
          List.countP_append, List.countP_cons, newCtx_ctx_isComplete]
        omega
  | store i k v =>
      cases hg : w.ctxs[i]? with
      | none => simpa [World.step, World.updCtx, hg] using h
      | some c =>
          simp only [World.step, World.updCtx, hg]
          unfold WInv at h ⊢
          simp only [List.length_set,
            countP_set_same_flag (fun c => c.isComplete) _ hg (store_isComplete c k v)]
          exact h
  | deferCb i cb =>
      cases hg : w.ctxs[i]? with
      | none => simpa [World.step, World.updCtx, hg] using h
      | some c =>
          simp only [World.step, World.updCtx, hg]
          unfold WInv at h ⊢
          simp only [List.length_set,
            countP_set_same_flag (fun c => c.isComplete) (c.deferCb cb) hg (deferCb_isComplete c cb)]
          exact h
  | attach i b =>
      cases hg : w.ctxs[i]? with
      | none => simpa [World.step, World.updCtx, hg] using h
      | some c =>
          simp only [World.step, World.updCtx, hg]
          unfold WInv at h ⊢
          simp only [List.length_set,
            countP_set_same_flag (fun c => c.isComplete) (c.attach b) hg (attach_isComplete c b)]
          exact h
  | complete i => exact inv_completeAt i _ h
  | completeWithErr i e => exact inv_completeAt i e h
  | timerFire i => exact inv_completeAt i _ h
  | spawn i idStr =>
      cases hg : w.ctxs[i]? with
      | none => simpa [World.step, hg] using h
      | some c =>
          by_cases hc : c.isComplete = true
          · simpa [World.step, hg, Ctx.spawn, hc, WInv] using h
          · have hc' : c.isComplete = false := by simpa using hc
            have hopen : (runSpawnedHooks w.factory.injectors
                (w.factory.newCtx c.base idStr).2).1.isComplete = false := by
              rw [runSpawnedHooks_isComplete, newCtx_ctx_isComplete]
            cases hb : (runSpawnedHooks w.factory.injectors
                (w.factory.newCtx c.base idStr).2).2 with
            | false =>
                unfold WInv at h ⊢
                simp [World.step, hg, Ctx.spawn, hc', hb, newCtx_fac,
                  List.countP_append, List.countP_cons, hopen]
                omega
            | true =>
                unfold WInv at h ⊢
                simp [World.step, hg, Ctx.spawn, hc', hb, completeCtx,
                  completeWithError_of_open _ _ hopen, newCtx_fac,
                  List.countP_append, List.countP_cons]
                omega
  | shutdownBegin =>
      unfold WInv at h ⊢
      simpa [World.step, shutdownBegin_open] using h

lemma inv_run {w : World} (ops : List Op) (h : WInv w) : WInv (w.run ops) := by
  induction ops generalizing w with
  | nil => exact h
  | cons o t ih => exact ih (inv_step o h)

lemma inv_init (injectors : List Provider) : WInv (initWorld injectors) := by
  unfold WInv initWorld
  simp [NewSceneFactor_open]

/-! ### A completed context is frozen -/

/-- A completion event elsewhere (or a duplicate one here) leaves a completed
context untouched and runs none of its callbacks. -/
lemma completeAt_frozen {w : World} {j : Nat} {e : Option GoErr} {i : Nat} {c : Ctx}
    (hg : w.ctxs[i]? = some c) (hc : c.isComplete = true) :
    ∃ c', (w.completeAt j e).ctxs[i]? = some c' ∧ c'.isComplete = true ∧
      c'.err = c.err ∧ c'.values = c.values ∧
      ∀ ent ∈ (w.completeAt j e).log, ent ∈ w.log ∨ ent.ctxIdx ≠ i := by
  cases hj : w.ctxs[j]? with
  | none => exact ⟨c, by simp [World.completeAt, hj, hg], hc, rfl, rfl,
      by simp [World.completeAt, hj]; exact fun _ h => Or.inl h⟩
  | some cj =>
      by_cases hij : j = i
      · subst hij
        have hcc : cj = c := by rw [hj] at hg; exact Option.some.inj hg
        subst hcc
        refine ⟨cj, ?_, hc, rfl, rfl, ?_⟩
        · simp [World.completeAt, hj, completeWithError_of_complete _ _ hc,
            set_of_get?_eq hj, hg]
        · simp [World.completeAt, hj, completeWithError_of_complete _ _ hc]
          exact fun _ h => Or.inl h
      · refine ⟨c, ?_, hc, rfl, rfl, ?_⟩
        · simp [World.completeAt, hj, get?_set_ne _ hij, hg]
        · have hlog : (w.completeAt j e).log =
              w.log ++ ((completeWithError w.factory cj e).ran.map
                (fun p => ⟨j, p.1, p.2⟩)) := by
            simp [World.completeAt, hj]
          rw [hlog]
          intro ent hent
          rcases List.mem_append.mp hent with h1 | h2
          · exact Or.inl h1
          · obtain ⟨p, _, rfl⟩ := List.mem_map.mp h2
            exact Or.inr hij

/-- After completion a context is inert under every further API event: it
stays present at its index, stays completed, keeps its sticky error and its
(cleared) value map, and no further deferred callback of it is executed. -/
lemma step_frozen {w : World} (o : Op) {i : Nat} {c : Ctx}
    (hg : w.ctxs[i]? = some c) (hc : c.isComplete = true) :
    ∃ c', (w.step o).ctxs[i]? = some c' ∧ c'.isComplete = true ∧
      c'.err = c.err ∧ c'.values = c.values ∧
      ∀ ent ∈ (w.step o).log, ent ∈ w.log ∨ ent.ctxIdx ≠ i := by
  cases o with
  | newCtx idStr =>
      by_cases hcl : w.factory.closed = true
      · exact ⟨c, by simp [World.step, Factory.NewCtx, hcl, hg, hc], hc, rfl, rfl,
          by simp [World.step, Factory.NewCtx, hcl]; exact fun _ h => Or.inl h⟩
      · exact ⟨c, by simp [World.step, Factory.NewCtx, hcl, get?_append_some hg], hc,
          rfl, rfl, by simp [World.step, Factory.NewCtx, hcl]; exact fun _ h => Or.inl h⟩
  | wrap b idStr =>
      by_cases hcl : w.factory.closed = true
      · exact ⟨c, by simp [World.step, Factory.Wrap, hcl, hg, hc], hc, rfl, rfl,
          by simp [World.step, Factory.Wrap, hcl]; exact fun _ h => Or.inl h⟩
      · exact ⟨c, by simp [World.step, Factory.Wrap, hcl, get?_append_some hg], hc,
          rfl, rfl, by simp [World.step, Factory.Wrap, hcl]; exact fun _ h => Or.inl h⟩
  | store j k v =>
      cases hj : w.ctxs[j]? with
      | none => exact ⟨c, by simp [World.step, World.updCtx, hj, hg], hc, rfl, rfl,
          by simp [World.step, World.updCtx, hj]; exact fun _ h => Or.inl h⟩
      | some cj =>
          by_cases hij : j = i
          · subst hij
            have hcc : cj = c := by rw [hj] at hg; exact Option.some.inj hg
            subst hcc
            refine ⟨cj, ?_, hc, rfl, rfl, by simp [World.step, World.updCtx, hj]; exact fun _ h => Or.inl h⟩
            simp [World.step, World.updCtx, hj, store_of_complete _ _ hc,
              set_of_get?_eq hj, hg]
          · refine ⟨c, ?_, hc, rfl, rfl, by simp [World.step, World.updCtx, hj]; exact fun _ h => Or.inl h⟩
            simp [World.step, World.updCtx, hj, get?_set_ne _ hij, hg]
  | deferCb j cb =>
      cases hj : w.ctxs[j]? with
      | none => exact ⟨c, by simp [World.step, World.updCtx, hj, hg], hc, rfl, rfl,
          by simp [World.step, World.updCtx, hj]; exact fun _ h => Or.inl h⟩
      | some cj =>
          by_cases hij : j = i
          · subst hij
            have hcc : cj = c := by rw [hj] at hg; exact Option.some.inj hg
            subst hcc
            refine ⟨cj.deferCb cb, ?_, by rw [deferCb_isComplete]; exact hc,
              rfl, rfl, by simp [World.step, World.updCtx, hj]; exact fun _ h => Or.inl h⟩
            simp [World.step, World.updCtx, hj, get?_set_eq_of_some _ hj]
          · refine ⟨c, ?_, hc, rfl, rfl, by simp [World.step, World.updCtx, hj]; exact fun _ h => Or.inl h⟩
            simp [World.step, World.updCtx, hj, get?_set_ne _ hij, hg]
  | attach j b =>
      cases hj : w.ctxs[j]? with
      | none => exact ⟨c, by simp [World.step, World.updCtx, hj, hg], hc, rfl, rfl,
          by simp [World.step, World.updCtx, hj]; exact fun _ h => Or.inl h⟩
      | some cj =>
          by_cases hij : j = i
          · subst hij
            have hcc : cj = c := by rw [hj] at hg; exact Option.some.inj hg
            subst hcc
            refine ⟨cj.attach b, ?_, by rw [attach_isComplete]; exact hc,
              rfl, rfl, by simp [World.step, World.updCtx, hj]; exact fun _ h => Or.inl h⟩
            simp [World.step, World.updCtx, hj, get?_set_eq_of_some _ hj]
          · refine ⟨c, ?_, hc, rfl, rfl, by simp [World.step, World.updCtx, hj]; exact fun _ h => Or.inl h⟩
            simp [World.step, World.updCtx, hj, get?_set_ne _ hij, hg]
  | complete j => exact completeAt_frozen hg hc
  | completeWithErr j e => exact completeAt_frozen hg hc
  | timerFire j => exact completeAt_frozen hg hc
  | spawn j idStr =>
      cases hj : w.ctxs[j]? with
      | none => exact ⟨c, by simp [World.step, hj, hg], hc, rfl, rfl,
          by simp [World.step, hj]; exact fun _ h => Or.inl h⟩
      | some cj =>
          cases hch : (Ctx.spawn w.factory cj idStr).child with
          | none => exact ⟨c, by simp [World.step, hj, hch, hg], hc, rfl, rfl,
              by simp [World.step, hj, hch]; exact fun _ h => Or.inl h⟩
          | some ch => exact ⟨c, by simp [World.step, hj, hch, get?_append_some hg],
              hc, rfl, rfl, by simp [World.step, hj, hch]; exact fun _ h => Or.inl h⟩
  | shutdownBegin =>
      exact ⟨c, by simp [World.step, hg], hc, rfl, rfl, by simp [World.step]; exact fun _ h => Or.inl h⟩

/-- Iterated version of `step_frozen`: a completed context stays frozen over
any whole event sequence. -/
lemma run_frozen {w : World} (ops : List Op) {i : Nat} {c : Ctx}
    (hg : w.ctxs[i]? = some c) (hc : c.isComplete = true) :
    ∃ c', (w.run ops).ctxs[i]? = some c' ∧ c'.isComplete = true ∧
      c'.err = c.err ∧ c'.values = c.values ∧
      ∀ ent ∈ (w.run ops).log, ent ∈ w.log ∨ ent.ctxIdx ≠ i := by
  induction ops generalizing w c with
  | nil => exact ⟨c, hg, hc, rfl, rfl, fun _ h => Or.inl h⟩
  | cons o t ih =>
      obtain ⟨c1, hg1, hc1, he1, hv1, hl1⟩ := step_frozen o hg hc
      obtain ⟨c2, hg2, hc2, he2, hv2, hl2⟩ := ih hg1 hc1
      refine ⟨c2, hg2, hc2, he2.trans he1, hv2.trans hv1, ?_⟩
      intro ent hent
      rcases hl2 ent hent with h1 | h2
      · exact hl1 ent h1
      · exact Or.inr h2

/-! ### Claim theorems -/

/-- C6: completion runs the callbacks registered via `Defer` exactly once
each, in last-registered-first (LIFO) order — registering `A, B, C` runs
`C, B, A` — and in general the execution sequence is the reverse of the
registration sequence, with registration multiplicities preserved. -/
theorem c6_defer_lifo (f : Factory) (c : Ctx) (e : Option GoErr)
    (a b k : Nat) (h : c.isComplete = false) :
    (completeWithError f c e).ran = c.onComplete.reverse.map (fun cb => (cb, e))
    ∧ (completeWithError f (((c.deferCb a).deferCb b).deferCb k) e).ran
        = (k, e) :: (b, e) :: (a, e)
            :: c.onComplete.reverse.map (fun cb => (cb, e))
    ∧ ∀ cb : Nat, ((completeWithError f c e).ran.map Prod.fst).count cb
        = c.onComplete.count cb := by
  have hdef : (((c.deferCb a).deferCb b).deferCb k).isComplete = false := by
    rw [deferCb_isComplete, deferCb_isComplete, deferCb_isComplete]; exact h
  refine ⟨?_, ?_, ?_⟩
  · rw [completeWithError_of_open _ _ h]
  · rw [completeWithError_of_open _ _ hdef]
    simp [Ctx.deferCb]
  · intro cb
    rw [completeWithError_of_open _ _ h]
    simp [List.map_map, Function.comp_def]

/-- Witness for C6 at a freshly minted context carrying callbacks 1, 2, 3. -/
theorem c6_defer_lifo_witness :
    (completeWithError fac0 ctx0 (some (GoErr.user 7))).ran
        = ctx0.onComplete.reverse.map (fun cb => (cb, some (GoErr.user 7)))
    ∧ (completeWithError fac0 (((ctx0.deferCb 1).deferCb 2).deferCb 3)
          (some (GoErr.user 7))).ran
        = (3, some (GoErr.user 7)) :: (2, some (GoErr.user 7))
            :: (1, some (GoErr.user 7))
            :: ctx0.onComplete.reverse.map (fun cb => (cb, some (GoErr.user 7)))
    ∧ ∀ cb : Nat,
        ((completeWithError fac0 ctx0 (some (GoErr.user 7))).ran.map
            Prod.fst).count cb
          = ctx0.onComplete.count cb :=
  c6_defer_lifo fac0 ctx0 (some (GoErr.user 7)) 1 2 3 (by decide)

/-- C7: once `Shutdown` has set the closed flag, `NewCtx` and `Wrap` both
fail fast with `ErrShutdownInProgress`, allocate no context, and leave the
open-context counter untouched. -/
theorem c7_create_after_shutdown_fails (f : Factory) (idStr : String)
    (b : BaseCtx) :
    ((f.shutdownBegin).1.NewCtx idStr)
        = ⟨(f.shutdownBegin).1, none, some GoErr.shutdownInProgress⟩
    ∧ ((f.shutdownBegin).1.Wrap b idStr)
        = ⟨(f.shutdownBegin).1, none, some GoErr.shutdownInProgress⟩
    ∧ ((f.shutdownBegin).1.NewCtx idStr).fac.openContextsOf
        = f.openContextsOf
    ∧ ((f.shutdownBegin).1.Wrap b idStr).fac.openContextsOf
        = f.openContextsOf := by
  have hcl := shutdownBegin_closed f
  refine ⟨?_, ?_, ?_, ?_⟩ <;>
    simp [Factory.NewCtx, Factory.Wrap, hcl, Factory.openContextsOf,
      shutdownBegin_open]

/-- C1 counterexample: with shutdown begun (`closed = true`) but the parent
context still open, `Spawn` does not return `ErrShutdownInProgress`: it
returns a child with nil error and increments the open-context counter. -/
theorem c1_spawn_after_shutdown_counterexample :
    c1fac.closed = true
    ∧ ctx0.isComplete = false
    ∧ (ctx0.spawn c1fac "b").err = none
    ∧ ((ctx0.spawn c1fac "b").ret).isSome = true
    ∧ (ctx0.spawn c1fac "b").fac.openContextsOf
        = c1fac.openContextsOf + 1 := by decide

/-- C1 (amended): `Spawn` returns `ErrShutdownInProgress` exactly when the
parent context itself has completed — and then no child is created and the
factory state is untouched; the factory's shutdown flag is not consulted, so
a still-open parent spawns a child even after shutdown has begun. -/
theorem c1_spawn_checks_parent_only (f : Factory) (c : Ctx) (idStr : String) :
    ((c.spawn f idStr).err = some GoErr.shutdownInProgress
        ↔ c.isComplete = true)
    ∧ (c.isComplete = true →
        c.spawn f idStr = ⟨f, none, some GoErr.shutdownInProgress, none⟩)
    ∧ (c.isComplete = false →
        ∃ ch, (c.spawn f idStr).child = some ch) := by
  by_cases hc : c.isComplete = true
  · refine ⟨by simp [Ctx.spawn, hc], fun _ => by simp [Ctx.spawn, hc], ?_⟩
    intro hfalse
    rw [hc] at hfalse
    cases hfalse
  · have hc' : c.isComplete = false := by simpa using hc
    refine ⟨?_, ?_, ?_⟩
    · rw [iff_false_intro hc]
      simp only [Ctx.spawn, hc', Bool.false_eq_true, if_false, iff_false]
      split <;> simp
    · intro habs
      rw [habs] at hc'
      cases hc'
    · intro
      simp only [Ctx.spawn, hc', Bool.false_eq_true, if_false]
      split <;> exact ⟨_, rfl⟩

/-- Witness for C1 (amended) at the post-shutdown factory and open parent. -/
theorem c1_spawn_checks_parent_only_witness :
    ((ctx0.spawn c1fac "b").err = some GoErr.shutdownInProgress
        ↔ ctx0.isComplete = true)
    ∧ (ctx0.isComplete = true →
        ctx0.spawn c1fac "b" = ⟨c1fac, none, some GoErr.shutdownInProgress, none⟩)
    ∧ (ctx0.isComplete = false →
        ∃ ch, (ctx0.spawn c1fac "b").child = some ch) :=
  c1_spawn_checks_parent_only c1fac ctx0 "b"

/-- C4 counterexample: when an `OnSpawnedContext` hook panics, the deferred
handler recovers without re-panicking, so the panic is not re-raised to the
`Spawn` caller: the call returns normally with its zero values — a nil
context and a nil error. -/
theorem c4_spawn_panic_counterexample :
    (runSpawnedHooks c4fac.injectors (c4fac.newCtx c4ctx.base "b").2).2 = true
    ∧ (c4ctx.spawn c4fac "b").ret = none
    ∧ (c4ctx.spawn c4fac "b").err = none
    ∧ ((c4ctx.spawn c4fac "b").child).map (fun ch => ch.isComplete)
        = some true := by decide

/-- C4 (amended): when an `OnSpawnedContext` hook panics during `Spawn`, the
half-created child is force-completed (so the open-context counter is not
leaked), but the recovered panic is swallowed rather than re-raised: `Spawn`
returns a nil context and a nil error. -/
theorem c4_spawn_panic_swallowed (f : Factory) (c : Ctx) (idStr : String)
    (h1 : c.isComplete = false)
    (h2 : (runSpawnedHooks f.injectors (f.newCtx c.base idStr).2).2 = true) :
    (c.spawn f idStr).ret = none
    ∧ (c.spawn f idStr).err = none
    ∧ (∃ ch, (c.spawn f idStr).child = some ch ∧ ch.isComplete = true)
    ∧ (c.spawn f idStr).fac.openContextsOf = f.openContextsOf := by
  have hopen : (runSpawnedHooks f.injectors
      (f.newCtx c.base idStr).2).1.isComplete = false := by
    rw [runSpawnedHooks_isComplete, newCtx_ctx_isComplete]
  refine ⟨?_, ?_, ?_, ?_⟩ <;>
    simp [Ctx.spawn, h1, h2, completeCtx,
      completeWithError_of_open _ _ hopen, newCtx_fac, Factory.openContextsOf]

/-- Witness for C4 (amended) under the concrete panicking provider. -/
theorem c4_spawn_panic_swallowed_witness :
    (c4ctx.spawn c4fac "b").ret = none
    ∧ (c4ctx.spawn c4fac "b").err = none
    ∧ (∃ ch, (c4ctx.spawn c4fac "b").child = some ch ∧ ch.isComplete = true)
    ∧ (c4ctx.spawn c4fac "b").fac.openContextsOf = c4fac.openContextsOf :=
  c4_spawn_panic_swallowed c4fac c4ctx "b" (by decide) (by decide)

/-- C3 counterexample: a wrapped context whose base also binds the stored
key.  After completion, `Value` is not absent: it falls through the cleared
own map to the base context and returns the base's value. -/
theorem c3_value_after_complete_counterexample :
    c3stored.value (.user 1) = some (.vnat 9)
    ∧ c3done.isComplete = true
    ∧ c3done.value (.user 1) = some (.vnat 5)
    ∧ c3done.value (.user 1) ≠ none := by decide

/-- C3 (amended): after `Complete()` (via any trigger) the context's own map
is cleared, so `Value(k)` returns the attached base context's value for `k` —
absent whenever there is no base or the base lacks `k` — and any subsequent
`Store` leaves the context's state unchanged. -/
theorem c3_value_cleared_on_complete (f : Factory) (c : Ctx) (k : Key)
    (v : Val) (e : Option GoErr) (h : c.isComplete = false) :
    ((completeWithError f c e).ctx.value k
        = match c.base with
          | some b => b.value k
          | none => none)
    ∧ (c.base = none → (completeWithError f c e).ctx.value k = none)
    ∧ (completeWithError f c e).ctx.store k v = (completeWithError f c e).ctx := by
  rw [completeWithError_of_open _ _ h]
  refine ⟨?_, ?_, ?_⟩
  · cases c.base <;> simp [Ctx.value]
  · intro hb
    simp [Ctx.value, hb]
  · exact store_of_complete _ _ rfl

/-- Witness for C3 (amended) at the wrapped-and-stored concrete context. -/
theorem c3_value_cleared_on_complete_witness :
    ((completeWithError c3fac c3stored none).ctx.value (.user 1)
        = match c3stored.base with
          | some b => b.value (.user 1)
          | none => none)
    ∧ (c3stored.base = none →
        (completeWithError c3fac c3stored none).ctx.value (.user 1) = none)
    ∧ (completeWithError c3fac c3stored none).ctx.store (.user 1) (.vnat 0)
        = (completeWithError c3fac c3stored none).ctx :=
  c3_value_cleared_on_complete c3fac c3stored (.user 1) (.vnat 0) none (by decide)

/-- C9 counterexample: before completion `GetRequestID` returns the id
assigned at creation; after completion the cleared value map no longer binds
the request-id key, so `GetRequestID` returns the empty string — the id is no
longer retrievable through `GetRequestID`/`Value`. -/
theorem c9_id_not_queryable_counterexample :
    getRequestID c9ctx = "abc"
    ∧ c9done.isComplete = true
    ∧ getRequestID c9done = ""
    ∧ getRequestID c9done ≠ c9ctx.id := by decide

/-- C9 (amended): a completed context remains an inert record whose sticky
error is still queryable through `GetLastError`/`Err`, and whose id survives
only as an unexported field: `GetRequestID`/`Value` no longer return it,
because completion clears the value map (for a context minted over
`context.Background()`, `GetRequestID` yields the empty string). -/
theorem c9_error_queryable_id_not (f : Factory) (c : Ctx) (e : Option GoErr)
    (h1 : c.isComplete = false) (h2 : c.err = none)
    (h3 : c.base = some background) :
    (completeWithError f c e).ctx.getLastError = some (e.getD GoErr.complete)
    ∧ getRequestID (completeWithError f c e).ctx = ""
    ∧ (completeWithError f c e).ctx.id = c.id := by
  rw [completeWithError_of_open _ _ h1]
  refine ⟨?_, ?_, rfl⟩
  · cases e <;> simp [stickyErr, Ctx.getLastError, h2]
  · simp [getRequestID, Ctx.value, h3, background, BaseCtx.value, mlookup]

/-- Witness for C9 (amended) at the freshly minted `abc` context. -/
theorem c9_error_queryable_id_not_witness :
    (completeWithError c9fac c9ctx (some (GoErr.user 3))).ctx.getLastError
        = some ((some (GoErr.user 3)).getD GoErr.complete)
    ∧ getRequestID (completeWithError c9fac c9ctx (some (GoErr.user 3))).ctx = ""
    ∧ (completeWithError c9fac c9ctx (some (GoErr.user 3))).ctx.id = c9ctx.id :=
  c9_error_queryable_id_not c9fac c9ctx (some (GoErr.user 3))
    (by decide) (by decide) (by decide)

/-- C5 counterexample: when the deadline fires, the recorded error is the
`stack.Trace`-wrapped Timeout sentinel, so `Err() == Timeout` fails by
identity (the error only unwraps to the sentinel). -/
theorem c5_timeout_not_identical_counterexample :
    c5fired.errOf = some (GoErr.traced GoErr.timeout timeoutKvKeys)
    ∧ c5fired.errOf ≠ some GoErr.timeout
    ∧ (c5fired.errOf).map GoErr.rootOf = some GoErr.timeout := by decide

/-- C5 (amended): the completed context's error is sticky — it is never
cleared or overwritten by any later event — and equals: a stack-trace wrapper
around the Timeout sentinel (unwrapping to `Timeout`, though not identical to
it) when the deadline fired the completion, the Complete sentinel when
`Complete()` was called or `CompleteWithError` received nil, and the
caller-supplied error verbatim otherwise. -/
theorem c5_sticky_error_taxonomy :
    (∀ (w : World) (ops : List Op) (i : Nat) (c : Ctx) (e : GoErr),
        w.ctxs[i]? = some c → c.isComplete = true → c.err = some e →
        ∃ c', (w.run ops).ctxs[i]? = some c' ∧ c'.isComplete = true
          ∧ c'.getLastError = some e)
    ∧ (∀ (f : Factory) (c : Ctx), c.isComplete = false → c.err = none →
        (timerFire f c).ctx.errOf = some (GoErr.traced GoErr.timeout timeoutKvKeys)
        ∧ GoErr.rootOf (GoErr.traced GoErr.timeout timeoutKvKeys) = GoErr.timeout
        ∧ (completeCtx f c).ctx.errOf = some GoErr.complete
        ∧ (completeWithError f c none).ctx.errOf = some GoErr.complete
        ∧ ∀ e : GoErr, (completeWithError f c (some e)).ctx.errOf = some e) := by
  constructor
  · intro w ops i c e hg hc he
    obtain ⟨c', hg', hc', he', _, _⟩ := run_frozen ops hg hc
    refine ⟨c', hg', hc', ?_⟩
    rw [he] at he'
    simp [Ctx.getLastError, he']
  · intro f c h1 h2
    refine ⟨?_, rfl, ?_, ?_, ?_⟩
    · simp [timerFire, completeWithError_of_open _ _ h1, stickyErr,
        Ctx.errOf, Ctx.getLastError]
    · simp [completeCtx, completeWithError_of_open _ _ h1, stickyErr,
        Ctx.errOf, Ctx.getLastError]
    · simp [completeWithError_of_open _ _ h1, stickyErr, h2,
        Ctx.errOf, Ctx.getLastError]
    · intro e
      simp [completeWithError_of_open _ _ h1, stickyErr,
        Ctx.errOf, Ctx.getLastError]

/-- Witness for C5 (amended): stickiness over a further event sequence for
the completed context of `c2w`, and the taxonomy at the fresh `ctx0`. -/
theorem c5_sticky_error_taxonomy_witness :
    (∃ c', (c2w.run [Op.store 0 (.user 1) (.vnat 1), Op.timerFire 0]).ctxs[0]?
        = some c' ∧ c'.isComplete = true ∧ c'.getLastError = some GoErr.complete)
    ∧ ((timerFire fac0 ctx0).ctx.errOf
          = some (GoErr.traced GoErr.timeout timeoutKvKeys)
        ∧ GoErr.rootOf (GoErr.traced GoErr.timeout timeoutKvKeys) = GoErr.timeout
        ∧ (completeCtx fac0 ctx0).ctx.errOf = some GoErr.complete
        ∧ (completeWithError fac0 ctx0 none).ctx.errOf = some GoErr.complete
        ∧ ∀ e : GoErr, (completeWithError fac0 ctx0 (some e)).ctx.errOf = some e) :=
  ⟨c5_sticky_error_taxonomy.1 c2w [Op.store 0 (.user 1) (.vnat 1), Op.timerFire 0]
      0 c8ctx GoErr.complete (by decide) (by decide) (by decide),
   c5_sticky_error_taxonomy.2 fac0 ctx0 (by decide) (by decide)⟩

/-- C10: a context created over a base context (via `Wrap`, or with a base
set through `Attach`) keeps consulting that base from `Value` even after
completion: once its own map is cleared, `Value(k)` returns exactly the
base's binding for `k` — present when the base has it, absent only when the
base lacks it too. -/
theorem c10_base_fallback_after_complete (f : Factory) (b : BaseCtx)
    (idStr : String) (e : Option GoErr) (k : Key) (hcl : f.closed = false) :
    (∃ c, (f.Wrap b idStr).ret = some c ∧ c.base = some b
      ∧ (completeWithError (f.Wrap b idStr).fac c e).ctx.value k = b.value k)
    ∧ ∀ c2 : Ctx, c2.isComplete = false →
        (completeWithError f (c2.attach b) e).ctx.value k = b.value k := by
  constructor
  · refine ⟨(f.newCtx (some b) idStr).2, ?_, newCtx_ctx_base f (some b) idStr, ?_⟩
    · simp [Factory.Wrap, hcl]
    · rw [completeWithError_of_open _ _ (newCtx_ctx_isComplete f (some b) idStr)]
      simp [Ctx.value, newCtx_ctx_base]
  · intro c2 h2
    have h2' : (c2.attach b).isComplete = false := by
      rw [attach_isComplete]; exact h2
    rw [completeWithError_of_open _ _ h2']
    simp [Ctx.value, Ctx.attach]

/-- Witness for C10 at the concrete base carrying one user key. -/
theorem c10_base_fallback_after_complete_witness :
    (∃ c, ((NewSceneFactor []).Wrap c3base "w").ret = some c ∧ c.base = some c3base
      ∧ (completeWithError ((NewSceneFactor []).Wrap c3base "w").fac c none).ctx.value
          (.user 1) = c3base.value (.user 1))
    ∧ ∀ c2 : Ctx, c2.isComplete = false →
        (completeWithError (NewSceneFactor []) (c2.attach c3base) none).ctx.value
          (.user 1) = c3base.value (.user 1) :=
  c10_base_fallback_after_complete (NewSceneFactor []) c3base "w" none
    (.user 1) (by decide)

/-- C2: over every sequential trace of creations and completions (and any
other API events), `OpenContexts` equals the number of contexts created
minus the number completed and never goes negative; and on an
already-completed context, a repeated `Complete`/`CompleteWithError` changes
neither the factory nor any context — each completion decrements the counter
exactly once. -/
theorem c2_open_contexts_invariant (injectors : List Provider) (ops : List Op) :
    ((initWorld injectors).run ops).factory.openContextsOf
        = ((((initWorld injectors).run ops).ctxs.length : Int)
            - ((((initWorld injectors).run ops).completedCount : Int)))
    ∧ 0 ≤ ((initWorld injectors).run ops).factory.openContextsOf
    ∧ ∀ (i : Nat) (c : Ctx) (e : Option GoErr),
        ((initWorld injectors).run ops).ctxs[i]? = some c →
        c.isComplete = true →
        (((initWorld injectors).run ops).step (Op.completeWithErr i e)).factory
            = ((initWorld injectors).run ops).factory
        ∧ (((initWorld injectors).run ops).step (Op.completeWithErr i e)).ctxs
            = ((initWorld injectors).run ops).ctxs := by
  have hinv := inv_run ops (inv_init injectors)
  unfold WInv at hinv
  refine ⟨hinv, ?_, ?_⟩
  · have hle : ((initWorld injectors).run ops).ctxs.countP (fun c => c.isComplete)
        ≤ ((initWorld injectors).run ops).ctxs.length := List.countP_le_length _
    unfold Factory.openContextsOf
    omega
  · intro i c e hg hc
    constructor <;>
      simp [World.step, World.completeAt, hg,
        completeWithError_of_complete _ _ hc, set_of_get?_eq hg]

/-- Witness for C2: the counter of the one-context world is non-negative and
a second completion of its (already completed) context leaves the factory
untouched. -/
theorem c2_open_contexts_invariant_witness :
    0 ≤ c2w.factory.openContextsOf
    ∧ (c2w.step (Op.completeWithErr 0 none)).factory = c2w.factory := by
  have h := c2_open_contexts_invariant [] [Op.newCtx "a", Op.complete 0]
  exact ⟨h.2.1, (h.2.2 0 c8ctx none (by decide) (by decide)).1⟩

/-- C8: a callback registered via `Defer` after completion is never executed
— no completion event of that context ever runs callbacks again — and the
registration changes nothing observable: `Value`, `GetLastError` and the
completed flag are untouched. -/
theorem c8_defer_after_complete_never_runs (w : World) (ops : List Op)
    (i : Nat) (c : Ctx) (cb : Nat) (k : Key)
    (hg : w.ctxs[i]? = some c) (hc : c.isComplete = true) :
    (c.deferCb cb).value k = c.value k
    ∧ (c.deferCb cb).getLastError = c.getLastError
    ∧ (c.deferCb cb).isComplete = true
    ∧ ∀ ent ∈ ((w.step (Op.deferCb i cb)).run ops).log,
        ent ∈ w.log ∨ ent.ctxIdx ≠ i := by
  refine ⟨rfl, rfl, by rw [deferCb_isComplete]; exact hc, ?_⟩
  obtain ⟨c1, hg1, hc1, _, _, hl1⟩ := step_frozen (Op.deferCb i cb) hg hc
  obtain ⟨c2, _, _, _, _, hl2⟩ := run_frozen ops hg1 hc1
  intro ent hent
  rcases hl2 ent hent with h1 | h2
  · exact hl1 ent h1
  · exact Or.inr h2

/-- Witness for C8: deferring callback 42 on the completed context of `c2w`
and then replaying completion events executes nothing. -/
theorem c8_defer_after_complete_never_runs_witness :
    (c8ctx.deferCb 42).value (.user 0) = c8ctx.value (.user 0)
    ∧ (c8ctx.deferCb 42).getLastError = c8ctx.getLastError
    ∧ (c8ctx.deferCb 42).isComplete = true
    ∧ ∀ ent ∈ ((c2w.step (Op.deferCb 0 42)).run
          [Op.complete 0, Op.timerFire 0]).log,
        ent ∈ c2w.log ∨ ent.ctxIdx ≠ 0 :=
  c8_defer_after_complete_never_runs c2w [Op.complete 0, Op.timerFire 0] 0 c8ctx
    42 (.user 0) (by decide) (by decide)

end Scene
